import Mathlib

set_option autoImplicit false

namespace RedisHnsw

/-!  Shallow embedding of the redis_hnsw command adapter (`src/lib.rs`).

The repository's `hnsw.rs` and `types.rs` modules are not under `src/`;
definitions taken from them are marked `Modelled from the spec:` and follow
the specification's wording.  Rust `HashMap`s over string keys are embedded
as association lists, `Arc` strong counts as an explicit `strongCount`
field, weak references as node names resolved through the index's node map,
and the host store (Redis keyspace) as two association lists of records. -/

/-- First-match lookup in an association list (HashMap::get). -/
def alookup {α : Type} : List (String × α) → String → Option α
  | [], _ => none
  | (k, v) :: rest, k' => if k = k' then some v else alookup rest k'

/-- Replace-or-append insertion (HashMap::insert). -/
def ainsert {α : Type} : List (String × α) → String → α → List (String × α)
  | [], k, v => [(k, v)]
  | (k', v') :: rest, k, v =>
    if k' = k then (k, v) :: rest else (k', v') :: ainsert rest k v

/-- Key removal (HashMap::remove / key deletion in the store). -/
def aremove {α : Type} (l : List (String × α)) (k : String) : List (String × α) :=
  l.filter (fun p => decide (p.1 ≠ k))

/-- Modelled from the spec: argument parsing lives in the external host
adapter (`redis_module::parse_float` / `parse_unsigned_integer`, out of
scope per spec §1), and binary floating point is abstracted: float values are
carried by an ordered integer carrier (no claim depends on the float grid)
and `toF32` is the rounding performed by the `as f32` casts in `lib.rs`.  All theorems quantify over this model. -/
structure FloatModel where
  parseFloat : String → Option Int
  toF32 : Int → Int
  parseUInt : String → Option Nat

/-- Persisted node record (`NodeRedis`, spec §4.8: data plus per-layer
neighbor-name lists). -/
structure NodeRec where
  data : List Int
  neighbors : List (List String)
  deriving DecidableEq

/-- Modelled from the spec: persisted index record (`IndexRedis`, §4.8).
The real record also stores `m_L = 1 / ln M`, a real-valued sampling
constant referenced by no claim; it is omitted from the embedding. -/
structure IndexRec where
  name : String
  dim : Nat
  m : Nat
  efCon : Nat
  node_count : Nat
  nodes : List String
  layers : List (List String)
  enterpoint : Option String
  deriving DecidableEq

/-- Modelled from the spec: in-memory node (§3, §4.3).  Weak neighbor
references are embedded as node names (resolved through the index's node
map); `strongCount` models `Arc::strong_count` of the node's shared
pointer. -/
structure Node where
  data : List Int
  neighbors : List (List String)
  strongCount : Nat
  deriving DecidableEq

/-- Modelled from the spec: in-memory index state (§3).  The distance
metric field is omitted: `lib.rs` always installs the Euclidean kernel,
embedded below as `euclidean`. -/
structure Index where
  name : String
  dim : Nat
  M : Nat
  m_max : Nat
  m_max_0 : Nat
  efCon : Nat
  nodes : List (String × Node)
  layers : List (List String)
  enterpoint : Option String
  deriving DecidableEq

/-- The host store's keyspace: index records and node records. -/
structure Store where
  indexRecs : List (String × IndexRec)
  nodeRecs : List (String × NodeRec)
  deriving DecidableEq

/-- Global state: the store plus the in-memory index registry
(the `INDICES` map of `lib.rs`). -/
structure GState where
  store : Store
  registry : List (String × Index)
  deriving DecidableEq

/-- Reply values (RedisValue). -/
inductive RVal where
  | str (s : String)
  | num (n : Nat)
  | arr (l : List RVal)
  | indexRecord (r : IndexRec)
  | nodeRecord (r : NodeRec)
  | pairNameDist (name : String) (d : Int)

/-- Command failure: arity errors, string errors (RedisError::String),
parse failures, and Rust panics (an `unwrap` of `None`). -/
inductive RErr where
  | wrongArity
  | err (s : String)
  | parseErr
  | panicked (s : String)
  deriving DecidableEq

/-- A command's outcome: reply or error, plus the post state (for a panic,
the state at the point of the panic). -/
abbrev CmdResult := Except RErr RVal × GState

/-- Modelled from the spec: `Node::new` (§4.3) allocates a node with empty
neighbor lists; a fresh shared pointer has strong count 1. -/
def Node.new (data : List Int) : Node :=
  { data := data, neighbors := [], strongCount := 1 }

/-- Modelled from the spec: `Index::new` (§3, §4.4): `M_max = M`,
`M_max_0 = 2·M`, empty node map, no layers, no entry point. -/
def Index.new (name : String) (dim M efCon : Nat) : Index :=
  { name := name, dim := dim, M := M, m_max := M, m_max_0 := 2 * M,
    efCon := efCon, nodes := [], layers := [], enterpoint := none }

/-- Modelled from the spec: serialization `Index → IndexRedis` (§4.8). -/
def indexToRec (ix : Index) : IndexRec :=
  { name := ix.name, dim := ix.dim, m := ix.M, efCon := ix.efCon,
    node_count := ix.nodes.length, nodes := ix.nodes.map (fun p => p.1),
    layers := ix.layers, enterpoint := ix.enterpoint }

/-- Modelled from the spec: serialization `Node → NodeRedis` (§4.8). -/
def nodeToRec (nd : Node) : NodeRec :=
  { data := nd.data, neighbors := nd.neighbors }

/-- Modelled from the spec: deserialization `IndexRedis → Index` copies the
hyperparameters; `make_index` (in `lib.rs`) then rebuilds nodes, layers and
enterpoint. -/
def indexFromRec (ir : IndexRec) : Index :=
  { name := ir.name, dim := ir.dim, M := ir.m, m_max := ir.m,
    m_max_0 := 2 * ir.m, efCon := ir.efCon, nodes := [], layers := [],
    enterpoint := none }

/-- First pass of `make_index` (lib.rs:164-174): allocate every node named
by the index record from its node record, with empty neighbor lists,
failing when a node record is absent. -/
def allocNodes (store : Store) : List String → List (String × Node) →
    Except RErr (List (String × Node))
  | [], acc => .ok acc
  | n :: rest, acc =>
    match alookup store.nodeRecs n with
    | none => .error (.err ("Node: " ++ n ++ " does not exist"))
    | some nr => allocNodes store rest (ainsert acc n (Node.new nr.data))

/-- Second pass, inner loop (lib.rs:186-194): validate one layer's neighbor
names against the node map; the source's error message names the node being
wired, not the missing neighbor. -/
def wireNeighborLayer (nodes : List (String × Node)) (node_name : String) :
    List String → Except RErr (List String)
  | [] => .ok []
  | nb :: rest =>
    match alookup nodes nb with
    | none => .error (.err ("Node: " ++ node_name ++ " does not exist"))
    | some _ => (wireNeighborLayer nodes node_name rest).map (fun l => nb :: l)

/-- Second pass, per node (lib.rs:186-196): validate every layer list. -/
def wireNode (nodes : List (String × Node)) (node_name : String) :
    List (List String) → Except RErr (List (List String))
  | [] => .ok []
  | layer :: rest =>
    match wireNeighborLayer nodes node_name layer with
    | .error e => .error e
    | .ok l =>
      match wireNode nodes node_name rest with
      | .error e => .error e
      | .ok ls => .ok (l :: ls)

/-- Second pass of `make_index` (lib.rs:177-197): re-read each node record
and append the validated neighbor layers to the pre-allocated target
(`index.nodes.get(node_name).unwrap()` is a panic if the target were
missing, which the first pass makes unreachable). -/
def wireAll (store : Store) : List String → List (String × Node) →
    Except RErr (List (String × Node))
  | [], nodes => .ok nodes
  | n :: rest, nodes =>
    match alookup store.nodeRecs n with
    | none => .error (.err ("Node: " ++ n ++ " does not exist"))
    | some nr =>
      match wireNode nodes n nr.neighbors with
      | .error e => .error e
      | .ok ls =>
        match alookup nodes n with
        | none => .error (.panicked "called Option::unwrap on a None value")
        | some target =>
          wireAll store rest
            (ainsert nodes n { target with neighbors := target.neighbors ++ ls })

/-- Layer reconstruction, inner loop (lib.rs:200-208); the Rust HashSet of
weak references is embedded as the list of validated names. -/
def buildOneLayer (nodes : List (String × Node)) :
    List String → Except RErr (List String)
  | [] => .ok []
  | n :: rest =>
    match alookup nodes n with
    | none => .error (.err ("Node: " ++ n ++ " does not exist"))
    | some _ => (buildOneLayer nodes rest).map (fun l => n :: l)

/-- Layer reconstruction (lib.rs:199-210). -/
def buildLayers (nodes : List (String × Node)) :
    List (List String) → Except RErr (List (List String))
  | [] => .ok []
  | layer :: rest =>
    match buildOneLayer nodes layer with
    | .error e => .error e
    | .ok l =>
      match buildLayers nodes rest with
      | .error e => .error e
      | .ok ls => .ok (l :: ls)

/-- lib.rs:161-225: rebuild an in-memory index from its stored records.
Nodes are allocated in a first pass and wired in a second, then layers and
the enterpoint are resolved; any reference to a missing record fails. -/
def make_index (store : Store) (ir : IndexRec) : Except RErr Index :=
  match allocNodes store ir.nodes [] with
  | .error e => .error e
  | .ok nodes1 =>
    match wireAll store ir.nodes nodes1 with
    | .error e => .error e
    | .ok nodes2 =>
      match buildLayers nodes2 ir.layers with
      | .error e => .error e
      | .ok layers =>
        match ir.enterpoint with
        | some n =>
          match alookup nodes2 n with
          | none => .error (.err ("Node: " ++ n ++ " does not exist"))
          | some _ =>
            .ok { (indexFromRec ir) with
                  nodes := nodes2
                  layers := layers
                  enterpoint := some n }
        | none =>
          .ok { (indexFromRec ir) with
                nodes := nodes2
                layers := layers
                enterpoint := none }

/-- lib.rs:139-159: fetch an index from the registry; on a vacancy load it
from the store, inserting the freshly built index into the registry. -/
def load_index (st : GState) (index_name : String) :
    Except RErr (Index × GState) :=
  match alookup st.registry index_name with
  | some ix => .ok (ix, st)
  | none =>
    match alookup st.store.indexRecs index_name with
    | none => .error (.err ("Index: " ++ index_name ++ " does not exist"))
    | some ir =>
      match make_index st.store ir with
      | .error e => .error e
      | .ok ix => .ok (ix, { st with registry := ainsert st.registry index_name ix })

/-- lib.rs:227-246: rewrite the stored index record, failing when it is
absent from the store. -/
def update_index (st : GState) (index_name : String) (ix : Index) :
    Except RErr GState :=
  match alookup st.store.indexRecs index_name with
  | some _ =>
    .ok { st with store :=
      { st.store with indexRecs := ainsert st.store.indexRecs index_name (indexToRec ix) } }
  | none => .error (.err ("Index: " ++ index_name ++ " does not exist"))

/-- lib.rs:348-362: write a node record, replacing an existing one. -/
def write_node (st : GState) (key : String) (nr : NodeRec) : GState :=
  { st with store := { st.store with nodeRecs := ainsert st.store.nodeRecs key nr } }

/-- The node-record writes emitted through the `update_node` on_mutate
callback (lib.rs:364-369), applied in emission order. -/
def applyWrites (st : GState) (ws : List (String × NodeRec)) : GState :=
  ws.foldl (fun s w => write_node s w.1 w.2) st

/-- Type of the insertion core `hnsw::Index::add_node` (hnsw.rs is not in
src/ and no claim depends on its graph algebra, so the embedded command is
parametric in it): it yields the updated index together with the node
records emitted through on_mutate, or an error string. -/
abbrev AddCore :=
  Index → String → List Int → Except String (Index × List (String × NodeRec))

/-- Type of the deletion core `hnsw::Index::delete_node` (hnsw.rs is not in
src/; no claim reaches it, both NODE.DEL claims return earlier). -/
abbrev DeleteCore :=
  Index → String → Except String (Index × List (String × NodeRec))

/-- Component-wise f64 parsing of the vector arguments
(lib.rs:258-261 and 378-381); the first failure aborts. -/
def parseVec (FM : FloatModel) : List String → Option (List Int)
  | [] => some []
  | s :: rest =>
    match FM.parseFloat s with
    | none => none
    | some x => (parseVec FM rest).map (fun l => x :: l)

/-- Optional numeric parameter of NEW (lib.rs:43-58): absent positions take
the default, present ones must parse. -/
def parseParam (FM : FloatModel) (args : List String) (i : Nat) (dflt : Nat) :
    Option Nat :=
  match args.get? i with
  | none => some dflt
  | some s => FM.parseUInt s

/-- lib.rs:34-89, command hnsw.new. -/
def new_index (FM : FloatModel) (st : GState) (args : List String) : CmdResult :=
  if args.length < 2 then (.error .wrongArity, st) else
  let index_name := "hnsw." ++ args.getD 1 ""
  match parseParam FM args 2 512 with
  | none => (.error .parseErr, st)
  | some data_dim =>
    match parseParam FM args 3 5 with
    | none => (.error .parseErr, st)
    | some m =>
      match parseParam FM args 4 200 with
      | none => (.error .parseErr, st)
      | some ef =>
        match alookup st.store.indexRecs index_name with
        | some _ => (.error (.err ("Index: " ++ index_name ++ " already exists")), st)
        | none =>
          let index := Index.new index_name data_dim m ef
          (.ok (.str "OK"),
            { store := { st.store with
                indexRecs := ainsert st.store.indexRecs index_name (indexToRec index) },
              registry := ainsert st.registry index_name index })

/-- lib.rs:91-107, command hnsw.get. -/
def get_index (st : GState) (args : List String) : CmdResult :=
  if args.length < 2 then (.error .wrongArity, st) else
  let index_name := "hnsw." ++ args.getD 1 ""
  match load_index st index_name with
  | .error e => (.error e, st)
  | .ok (ix, st1) => (.ok (.indexRecord (indexToRec ix)), st1)

/-- lib.rs:109-137, command hnsw.del: the stored record is deleted first,
then the registry entry; a registry miss errors after the store delete. -/
def delete_index (st : GState) (args : List String) : CmdResult :=
  if args.length < 2 then (.error .wrongArity, st) else
  let index_name := "hnsw." ++ args.getD 1 ""
  match alookup st.store.indexRecs index_name with
  | none => (.error (.err ("Index: " ++ args.getD 1 "" ++ " does not exist")), st)
  | some _ =>
    let st1 := { st with store :=
      { st.store with indexRecs := aremove st.store.indexRecs index_name } }
    match alookup st1.registry index_name with
    | none => (.error (.err ("Index: " ++ args.getD 1 "" ++ " does not exist")), st1)
    | some _ => (.ok (.num 1), { st1 with registry := aremove st1.registry index_name })

/-- lib.rs:324-346, command hnsw.node.get: reads the stored node record
directly (no index load). -/
def get_node (st : GState) (args : List String) : CmdResult :=
  if args.length < 3 then (.error .wrongArity, st) else
  let node_name := "hnsw." ++ args.getD 1 "" ++ "." ++ args.getD 2 ""
  match alookup st.store.nodeRecs node_name with
  | some nr => (.ok (.nodeRecord nr), st)
  | none => (.error (.err ("Node: " ++ node_name ++ " does not exist")), st)

/-- lib.rs:248-280, command hnsw.node.add: parse, load the index, run the
insertion core, then persist the new node and the index record. -/
def add_node (FM : FloatModel) (ac : AddCore) (st : GState) (args : List String) :
    CmdResult :=
  if args.length < 4 then (.error .wrongArity, st) else
  let index_name := "hnsw." ++ args.getD 1 ""
  let node_name := "hnsw." ++ args.getD 1 "" ++ "." ++ args.getD 2 ""
  match parseVec FM (args.drop 3) with
  | none => (.error .parseErr, st)
  | some dataf64 =>
    let data := dataf64.map FM.toF32
    match load_index st index_name with
    | .error e => (.error e, st)
    | .ok (ix, st1) =>
      match ac ix node_name data with
      | .error e => (.error (.err e), st1)
      | .ok (ix', writes) =>
        let st2 := applyWrites { st1 with registry := ainsert st1.registry index_name ix' } writes
        match alookup ix'.nodes node_name with
        | none => (.error (.panicked "called Option::unwrap on a None value"), st2)
        | some node =>
          let st3 := write_node st2 node_name (nodeToRec node)
          match update_index st3 index_name ix' with
          | .error e => (.error e, st3)
          | .ok st4 => (.ok (.str "OK"), st4)

/-- lib.rs:282-322, command hnsw.node.del.  The source unwraps the node
lookup (line 294): a name absent from the in-memory index is a panic, not
an UnknownNode error; a strong count above 1 errors before any mutation. -/
def delete_node (dc : DeleteCore) (st : GState) (args : List String) : CmdResult :=
  if args.length < 3 then (.error .wrongArity, st) else
  let index_name := "hnsw." ++ args.getD 1 ""
  match load_index st index_name with
  | .error e => (.error e, st)
  | .ok (ix, st1) =>
    let node_name := "hnsw." ++ args.getD 1 "" ++ "." ++ args.getD 2 ""
    match alookup ix.nodes node_name with
    | none => (.error (.panicked "called Option::unwrap on a None value"), st1)
    | some node =>
      if node.strongCount > 1 then
        (.error (.err (node_name ++ " is being accessed, unable to delete. Try again later")), st1)
      else
        match dc ix node_name with
        | .error e => (.error (.err e), st1)
        | .ok (ix', writes) =>
          let st2 := applyWrites { st1 with registry := ainsert st1.registry index_name ix' } writes
          match alookup st2.store.nodeRecs node_name with
          | none => (.error (.err ("Node: " ++ node_name ++ " does not exist")), st2)
          | some _ =>
            let st3 := { st2 with store :=
              { st2.store with nodeRecs := aremove st2.store.nodeRecs node_name } }
            match update_index st3 index_name ix' with
            | .error e => (.error e, st3)
            | .ok st4 => (.ok (.num 1), st4)

/-- Modelled from the spec: squared Euclidean distance kernel (§4.1);
hnsw::metrics::euclidean is not in src/. -/
def euclidean (u v : List Int) : Int :=
  (List.zipWith (fun a b => (a - b) * (a - b)) u v).sum

/-- Frontier and result order (§4.2): ascending distance, equal distances
compare by node name. -/
def distLe (a b : Int × String) : Prop :=
  a.1 < b.1 ∨ (a.1 = b.1 ∧ a.2 ≤ b.2)

instance : DecidableRel distLe := fun a b => by
  unfold distLe; exact instDecidableOr

instance : IsTotal (Int × String) distLe where
  total a b := by
    rcases lt_trichotomy a.1 b.1 with h | h | h
    · exact Or.inl (Or.inl h)
    · rcases le_total a.2 b.2 with h2 | h2
      · exact Or.inl (Or.inr ⟨h, h2⟩)
      · exact Or.inr (Or.inr ⟨h.symm, h2⟩)
    · exact Or.inr (Or.inl h)

instance : IsTrans (Int × String) distLe where
  trans a b c hab hbc := by
    rcases hab with h1 | ⟨e1, s1⟩
    · rcases hbc with h2 | ⟨e2, s2⟩
      · exact Or.inl (h1.trans h2)
      · exact Or.inl (e2 ▸ h1)
    · rcases hbc with h2 | ⟨e2, s2⟩
      · exact Or.inl (e1 ▸ h2)
      · exact Or.inr ⟨e1.trans e2, s1.trans s2⟩

/-- Modelled from the spec: push into the bounded max-frontier W (§4.2):
insert in order, dropping the worst element when capacity ef is exceeded. -/
def pushW (ef : Nat) (W : List (Int × String)) (x : Int × String) :
    List (Int × String) :=
  let W1 := List.orderedInsert distLe x W
  if ef < W1.length then W1.dropLast else W1

/-- Modelled from the spec: §4.5 step 2, the loop over the neighbors of the
popped candidate: visited ones are skipped; an unvisited neighbor is pushed
into both frontiers when it beats W's current worst or W is not full; a
dead weak reference is skipped. -/
def stepNeighbors (ix : Index) (q : List Int) (ef : Nat) :
    List String → List String → List (Int × String) → List (Int × String) →
    List String × List (Int × String) × List (Int × String)
  | [], visited, C, W => (visited, C, W)
  | e :: rest, visited, C, W =>
    if e ∈ visited then stepNeighbors ix q ef rest visited C W
    else
      match alookup ix.nodes e with
      | none => stepNeighbors ix q ef rest (e :: visited) C W
      | some ne =>
        let de := euclidean ne.data q
        let accepted :=
          if W.length < ef then true
          else
            match W.getLast? with
            | some f => decide (de < f.1)
            | none => true
        if accepted then
          stepNeighbors ix q ef rest (e :: visited)
            (List.orderedInsert distLe (de, e) C) (pushW ef W (de, e))
        else stepNeighbors ix q ef rest (e :: visited) C W

/-- Modelled from the spec: §4.5 layer-local greedy loop.  The fuel only
bounds the iteration count: each iteration pops one candidate and every
node enters C at most once, so the fuel supplied by `searchLayer` is never
exhausted. -/
def searchLayerLoop (ix : Index) (q : List Int) (ef ℓ : Nat) :
    Nat → List String → List (Int × String) → List (Int × String) →
    List (Int × String)
  | 0, _, _, W => W
  | fuel + 1, visited, C, W =>
    match C with
    | [] => W
    | c :: Crest =>
      let stop :=
        match W.getLast? with
        | some f => decide (f.1 < c.1) && decide (W.length = ef)
        | none => false
      if stop then W
      else
        let nbrs :=
          match alookup ix.nodes c.2 with
          | none => []
          | some nd => nd.neighbors.getD ℓ []
        match stepNeighbors ix q ef nbrs visited Crest W with
        | (visited', C', W') => searchLayerLoop ix q ef ℓ fuel visited' C' W'

/-- Modelled from the spec: `search_layer` (§4.5): the visited set and both
frontiers start from the entry set, W capped at ef. -/
def searchLayer (ix : Index) (q : List Int) (entries : List String)
    (ef ℓ : Nat) : List (Int × String) :=
  let entriesD := entries.filterMap (fun n =>
    match alookup ix.nodes n with
    | none => none
    | some nd => some (euclidean nd.data q, n))
  let C0 := List.insertionSort distLe entriesD
  searchLayerLoop ix q ef ℓ (ix.nodes.length + entries.length + 1) entries C0
    (C0.take ef)

/-- Modelled from the spec: §4.5 top-level descent with ef = 1 from the top
layer down to layer 1; each step's nearest result becomes the entry. -/
def descend (ix : Index) (q : List Int) : Nat → String → String
  | 0, ep => ep
  | ℓ + 1, ep =>
    let W := searchLayer ix q [ep] 1 (ℓ + 1)
    descend ix q ℓ (match W.head? with | some c => c.2 | none => ep)

/-- Modelled from the spec: `Index::search_knn` (§4.5; hnsw.rs is not in
src/): an empty index yields no results; otherwise greedy descent to
layer 1, a beam search at layer 0 of width max(ef_construction, k), and
the k smallest-distance entries of W sorted ascending (ties by name).
A query of the wrong dimension is rejected (§7). -/
def searchKnnCore (ix : Index) (q : List Int) (k : Nat) :
    Except String (List (Int × String)) :=
  if q.length ≠ ix.dim then .error "Data dimension mismatch" else
  match ix.enterpoint with
  | none => .ok []
  | some ep =>
    let ep1 := descend ix q (ix.layers.length - 1) ep
    let W := searchLayer ix q [ep1] (max ix.efCon k) 0
    .ok ((List.insertionSort distLe W).take k)

/-- lib.rs:371-409, command hnsw.search: parse k and the query vector, load
the index, run the search core, and reply with the result count followed by
one (name, distance) entry per result. -/
def search_knn (FM : FloatModel) (st : GState) (args : List String) : CmdResult :=
  if args.length < 4 then (.error .wrongArity, st) else
  let index_name := "hnsw." ++ args.getD 1 ""
  match FM.parseUInt (args.getD 2 "") with
  | none => (.error .parseErr, st)
  | some k =>
    match parseVec FM (args.drop 3) with
    | none => (.error .parseErr, st)
    | some dataf64 =>
      let data := dataf64.map FM.toF32
      match load_index st index_name with
      | .error e => (.error e, st)
      | .ok (ix, st1) =>
        match searchKnnCore ix data k with
        | .ok res =>
          (.ok (.arr (.num res.length :: res.map (fun r => .pairNameDist r.2 r.1))), st1)
        | .error e => (.error (.err e), st1)

/-- A stored index record dangles when it names a node with no record:
among its node list, a neighbor entry of one of its node records, a layer
entry, or the enterpoint (spec §4.8, §7 DanglingReference). -/
def danglingRef (store : Store) (ir : IndexRec) : Prop :=
  (∃ n ∈ ir.nodes, alookup store.nodeRecs n = none)
  ∨ (∃ n ∈ ir.nodes, ∃ nr, alookup store.nodeRecs n = some nr ∧
      ∃ layer ∈ nr.neighbors, ∃ nb ∈ layer, nb ∉ ir.nodes)
  ∨ (∃ layer ∈ ir.layers, ∃ n ∈ layer, n ∉ ir.nodes)
  ∨ (∃ n, ir.enterpoint = some n ∧ n ∉ ir.nodes)

/-! Concrete fixtures shared by the witnesses. -/

instance {ε α : Type} [DecidableEq ε] [DecidableEq α] :
    DecidableEq (Except ε α) := fun a b =>
  match a, b with
  | .error e, .error f =>
    if h : e = f then .isTrue (by rw [h])
    else .isFalse (fun hh => by cases hh; exact h rfl)
  | .ok x, .ok y =>
    if h : x = y then .isTrue (by rw [h])
    else .isFalse (fun hh => by cases hh; exact h rfl)
  | .error _, .ok _ => .isFalse (fun h => Except.noConfusion h)
  | .ok _, .error _ => .isFalse (fun h => Except.noConfusion h)

/-- Concrete parsing model with a small table of literals and identity
rounding. -/
def FMtest : FloatModel :=
  { parseFloat := fun s => if s = "1" then some 1 else if s = "2" then some 2 else none
    toF32 := fun q => q
    parseUInt := fun s => if s = "5" then some 5 else if s = "7" then some 7 else none }

/-- Parsing model whose numeric parser always fails. -/
def FMnone : FloatModel :=
  { parseFloat := fun _ => none
    toF32 := fun q => q
    parseUInt := fun _ => none }

/-- Parsing model whose f32 rounding collapses every value. -/
def FMround : FloatModel :=
  { parseFloat := fun s => if s = "1" then some 1 else if s = "2" then some 2 else none
    toF32 := fun _ => 0
    parseUInt := fun s => if s = "5" then some 5 else none }

/-- Inert insertion core: the claims settled here either return before the
core runs or hold for every core. -/
def acNop : AddCore := fun ix _ _ => .ok (ix, [])

/-- Inert deletion core. -/
def dcNop : DeleteCore := fun ix _ => .ok (ix, [])

/-- The empty global state. -/
def stEmpty : GState := ⟨⟨[], []⟩, []⟩

/-- An index with an empty node map registered under hnsw.i. -/
def stC1 : GState := ⟨⟨[], []⟩, [("hnsw.i", Index.new "hnsw.i" 3 5 200)]⟩

/-- An index whose only node has shared-ownership count 2. -/
def ixBusy : Index :=
  { name := "hnsw.i", dim := 1, M := 5, m_max := 5, m_max_0 := 10, efCon := 200,
    nodes := [("hnsw.i.a", ⟨[0], [[]], 2⟩)], layers := [["hnsw.i.a"]],
    enterpoint := some "hnsw.i.a" }

/-- State registering `ixBusy`. -/
def stBusy : GState := ⟨⟨[], []⟩, [("hnsw.i", ixBusy)]⟩

/-- C1: NODE.DEL of a node name that is absent from the in-memory index
panics on the unwrap at lib.rs:294 instead of failing with UnknownNode;
evaluated at the concrete failing input (index hnsw.i registered with an
empty node map, command NODE.DEL i a). -/
theorem delete_node_missing_panics :
    delete_node dcNop stC1 ["hnsw.node.del", "i", "a"] =
      (.error (.panicked "called Option::unwrap on a None value"), stC1) := rfl

/-- C2: NODE.DEL of an existing node whose shared-ownership count exceeds 1
fails with the busy error telling the caller to retry, and the whole state
(registry, index, store) is unchanged: the check precedes every mutation
(lib.rs:293-301). -/
theorem delete_node_busy (dc : DeleteCore) (st : GState) (c i n : String)
    (ix : Index) (nd : Node)
    (hreg : alookup st.registry ("hnsw." ++ i) = some ix)
    (hnode : alookup ix.nodes ("hnsw." ++ i ++ "." ++ n) = some nd)
    (hcount : nd.strongCount > 1) :
    delete_node dc st [c, i, n] =
      (.error (.err ("hnsw." ++ i ++ "." ++ n ++
        " is being accessed, unable to delete. Try again later")), st) := by
  simp [delete_node, load_index, hreg, hnode, hcount]

/-- Witness for the busy-delete theorem at a concrete state. -/
theorem delete_node_busy_witness :
    delete_node dcNop stBusy ["hnsw.node.del", "i", "a"] =
      (.error (.err ("hnsw." ++ "i" ++ "." ++ "a" ++
        " is being accessed, unable to delete. Try again later")), stBusy) :=
  delete_node_busy dcNop stBusy "hnsw.node.del" "i" "a" ixBusy ⟨[0], [[]], 2⟩
    rfl rfl (by decide)

/-- C4: a command invoked with too few arguments (NEW without a name;
NODE.ADD without index name, node suffix and a vector component; NODE.DEL
or NODE.GET without index name and node suffix; SEARCH without index name,
k and a vector component) returns WrongArity and leaves the registry and
the store unchanged. -/
theorem wrongArity_no_state_change (FM : FloatModel) (ac : AddCore)
    (dc : DeleteCore) (st : GState) (args : List String) :
    (args.length < 2 → new_index FM st args = (.error .wrongArity, st))
    ∧ (args.length < 4 → add_node FM ac st args = (.error .wrongArity, st))
    ∧ (args.length < 3 → delete_node dc st args = (.error .wrongArity, st))
    ∧ (args.length < 3 → get_node st args = (.error .wrongArity, st))
    ∧ (args.length < 4 → search_knn FM st args = (.error .wrongArity, st)) := by
  refine ⟨fun h => ?_, fun h => ?_, fun h => ?_, fun h => ?_, fun h => ?_⟩ <;>
    simp [new_index, add_node, delete_node, get_node, search_knn, h]

/-- Witness for the arity theorem on the empty argument list. -/
theorem wrongArity_no_state_change_witness :
    new_index FMtest stEmpty [] = (.error .wrongArity, stEmpty)
    ∧ add_node FMtest acNop stEmpty [] = (.error .wrongArity, stEmpty)
    ∧ delete_node dcNop stEmpty [] = (.error .wrongArity, stEmpty)
    ∧ get_node stEmpty [] = (.error .wrongArity, stEmpty)
    ∧ search_knn FMtest stEmpty [] = (.error .wrongArity, stEmpty) := by
  have h := wrongArity_no_state_change FMtest acNop dcNop stEmpty []
  exact ⟨h.1 (by decide), h.2.1 (by decide), h.2.2.1 (by decide),
    h.2.2.2.1 (by decide), h.2.2.2.2 (by decide)⟩

/-- C5: DEL of an index present in both the store and the registry removes
the stored record and the registry entry and returns 1; DEL of an index
with no stored record fails with the unknown-index error and changes
nothing (lib.rs:109-137). -/
theorem delete_index_spec (st : GState) (c suffix : String) :
    (∀ ir ix, alookup st.store.indexRecs ("hnsw." ++ suffix) = some ir →
      alookup st.registry ("hnsw." ++ suffix) = some ix →
      delete_index st [c, suffix] =
        (.ok (.num 1),
         ⟨⟨aremove st.store.indexRecs ("hnsw." ++ suffix), st.store.nodeRecs⟩,
          aremove st.registry ("hnsw." ++ suffix)⟩))
    ∧ (alookup st.store.indexRecs ("hnsw." ++ suffix) = none →
      delete_index st [c, suffix] =
        (.error (.err ("Index: " ++ suffix ++ " does not exist")), st)) := by
  constructor
  · intro ir ix h1 h2
    simp [delete_index, h1, h2]
  · intro h
    simp [delete_index, h]

/-- Witness for the DEL theorem: both branches at concrete states. -/
theorem delete_index_spec_witness :
    delete_index ⟨⟨[("hnsw.i", indexToRec (Index.new "hnsw.i" 512 5 200))], []⟩,
        [("hnsw.i", Index.new "hnsw.i" 512 5 200)]⟩ ["hnsw.del", "i"] =
      (.ok (.num 1),
       ⟨⟨aremove [("hnsw.i", indexToRec (Index.new "hnsw.i" 512 5 200))] ("hnsw." ++ "i"), []⟩,
        aremove [("hnsw.i", Index.new "hnsw.i" 512 5 200)] ("hnsw." ++ "i")⟩)
    ∧ delete_index stEmpty ["hnsw.del", "i"] =
      (.error (.err ("Index: " ++ "i" ++ " does not exist")), stEmpty) :=
  ⟨(delete_index_spec ⟨⟨[("hnsw.i", indexToRec (Index.new "hnsw.i" 512 5 200))], []⟩,
      [("hnsw.i", Index.new "hnsw.i" 512 5 200)]⟩ "hnsw.del" "i").1
      (indexToRec (Index.new "hnsw.i" 512 5 200)) (Index.new "hnsw.i" 512 5 200) rfl rfl,
   (delete_index_spec stEmpty "hnsw.del" "i").2 rfl⟩

/-- C8: when the stored index record exists but the index is absent from
the in-memory registry, DEL deletes the stored record first and then fails
on the registry lookup, so the store mutation persists although an error is
returned (lib.rs:120-134). -/
theorem delete_index_store_mutation_persists (st : GState) (c suffix : String)
    (ir : IndexRec)
    (hstore : alookup st.store.indexRecs ("hnsw." ++ suffix) = some ir)
    (hreg : alookup st.registry ("hnsw." ++ suffix) = none) :
    delete_index st [c, suffix] =
      (.error (.err ("Index: " ++ suffix ++ " does not exist")),
       ⟨⟨aremove st.store.indexRecs ("hnsw." ++ suffix), st.store.nodeRecs⟩,
        st.registry⟩) := by
  simp [delete_index, hstore, hreg]

/-- Witness for the store-then-registry DEL theorem. -/
theorem delete_index_store_mutation_persists_witness :
    delete_index ⟨⟨[("hnsw.i", indexToRec (Index.new "hnsw.i" 512 5 200))], []⟩, []⟩
        ["hnsw.del", "i"] =
      (.error (.err ("Index: " ++ "i" ++ " does not exist")),
       ⟨⟨aremove [("hnsw.i", indexToRec (Index.new "hnsw.i" 512 5 200))] ("hnsw." ++ "i"), []⟩,
        []⟩) :=
  delete_index_store_mutation_persists
    ⟨⟨[("hnsw.i", indexToRec (Index.new "hnsw.i" 512 5 200))], []⟩, []⟩
    "hnsw.del" "i" (indexToRec (Index.new "hnsw.i" 512 5 200)) rfl rfl

/-- State whose store already records the index hnsw.i. -/
def stDup : GState :=
  ⟨⟨[("hnsw.i", indexToRec (Index.new "hnsw.i" 512 5 200))], []⟩, []⟩

/-- C6 counterexample: a NEW naming an index whose record already exists
but carrying an unparsable numeric argument fails with a parse error, not
with DuplicateIndex — lib.rs parses the optional parameters (lines 43-58)
before the duplicate check (line 62). -/
theorem new_index_duplicate_counterexample :
    alookup stDup.store.indexRecs ("hnsw." ++ "i") =
      some (indexToRec (Index.new "hnsw.i" 512 5 200))
    ∧ new_index FMnone stDup ["hnsw.new", "i", "9"] = (.error .parseErr, stDup) :=
  ⟨rfl, rfl⟩

/-- C6 (amended): provided NEW's optional numeric arguments parse, naming
an index whose record exists fails with the duplicate-index error and
changes neither the store nor the registry; otherwise an empty index with
the parsed parameters — omitted ones defaulting to dim=512, M=5,
ef_construction=200 — is written to the store and the registry and the
command returns OK (lib.rs:34-89). -/
theorem new_index_spec (FM : FloatModel) (st : GState) (c suffix : String)
    (rest : List String) (d m e : Nat)
    (hd : parseParam FM (c :: suffix :: rest) 2 512 = some d)
    (hm : parseParam FM (c :: suffix :: rest) 3 5 = some m)
    (he : parseParam FM (c :: suffix :: rest) 4 200 = some e) :
    (∀ ir, alookup st.store.indexRecs ("hnsw." ++ suffix) = some ir →
      new_index FM st (c :: suffix :: rest) =
        (.error (.err ("Index: " ++ ("hnsw." ++ suffix) ++ " already exists")), st))
    ∧ (alookup st.store.indexRecs ("hnsw." ++ suffix) = none →
      new_index FM st (c :: suffix :: rest) =
        (.ok (.str "OK"),
         ⟨⟨ainsert st.store.indexRecs ("hnsw." ++ suffix)
             (indexToRec (Index.new ("hnsw." ++ suffix) d m e)),
           st.store.nodeRecs⟩,
          ainsert st.registry ("hnsw." ++ suffix)
            (Index.new ("hnsw." ++ suffix) d m e)⟩)) := by
  constructor
  · intro ir h
    simp [new_index, hd, hm, he, h]
  · intro h
    simp [new_index, hd, hm, he, h]

/-- Witness for the amended NEW theorem: the duplicate branch and the
default-parameter creation branch at concrete states. -/
theorem new_index_spec_witness :
    new_index FMtest stDup ["hnsw.new", "i"] =
      (.error (.err ("Index: " ++ ("hnsw." ++ "i") ++ " already exists")), stDup)
    ∧ new_index FMtest stEmpty ["hnsw.new", "i"] =
      (.ok (.str "OK"),
       ⟨⟨ainsert [] ("hnsw." ++ "i")
           (indexToRec (Index.new ("hnsw." ++ "i") 512 5 200)), []⟩,
        ainsert [] ("hnsw." ++ "i") (Index.new ("hnsw." ++ "i") 512 5 200)⟩) :=
  ⟨(new_index_spec FMtest stDup "hnsw.new" "i" [] 512 5 200 rfl rfl rfl).1
      (indexToRec (Index.new "hnsw.i" 512 5 200)) rfl,
   (new_index_spec FMtest stEmpty "hnsw.new" "i" [] 512 5 200 rfl rfl rfl).2 rfl⟩

/-- C9: the read-only GET and SEARCH commands mutate the shared in-memory
registry: when the named index is absent from the registry but its record
is in the store (and its records load), the loaded index is inserted into
the registry — the source takes the global registry write lock for this
(INDICES.write(), lib.rs:96 and 384, embedded as exclusive access to the
registry field) — while the store is left unchanged. -/
theorem readonly_commands_load_into_registry (FM : FloatModel) (st : GState)
    (c suffix sk v0 : String) (vrest : List String) (k : Nat) (ds : List Int)
    (ir : IndexRec) (ix : Index) (res : List (Int × String))
    (hreg : alookup st.registry ("hnsw." ++ suffix) = none)
    (hstore : alookup st.store.indexRecs ("hnsw." ++ suffix) = some ir)
    (hmk : make_index st.store ir = .ok ix)
    (hk : FM.parseUInt sk = some k)
    (hv : parseVec FM (v0 :: vrest) = some ds)
    (hsearch : searchKnnCore ix (ds.map FM.toF32) k = .ok res) :
    get_index st [c, suffix] =
      (.ok (.indexRecord (indexToRec ix)),
       ⟨st.store, ainsert st.registry ("hnsw." ++ suffix) ix⟩)
    ∧ search_knn FM st (c :: suffix :: sk :: v0 :: vrest) =
      (.ok (.arr (.num res.length :: res.map (fun r => .pairNameDist r.2 r.1))),
       ⟨st.store, ainsert st.registry ("hnsw." ++ suffix) ix⟩) := by
  constructor
  · simp [get_index, load_index, hreg, hstore, hmk]
  · simp [search_knn, load_index, hreg, hstore, hmk, hk, hv, hsearch]

/-- Store fixture for the load witness: one index record over one node
record. -/
def storeW : Store :=
  ⟨[("hnsw.i", ⟨"hnsw.i", 1, 5, 1, 1, ["hnsw.i.a"], [["hnsw.i.a"]], some "hnsw.i.a"⟩)],
   [("hnsw.i.a", ⟨[0], [[]]⟩)]⟩

/-- The index `make_index` rebuilds from `storeW`. -/
def ixW : Index :=
  { name := "hnsw.i", dim := 1, M := 5, m_max := 5, m_max_0 := 10, efCon := 1,
    nodes := [("hnsw.i.a", ⟨[0], [[]], 1⟩)], layers := [["hnsw.i.a"]],
    enterpoint := some "hnsw.i.a" }

/-- Witness for the read-only-load theorem at a concrete store. -/
theorem readonly_commands_load_into_registry_witness :
    get_index ⟨storeW, []⟩ ["hnsw.get", "i"] =
      (.ok (.indexRecord (indexToRec ixW)),
       ⟨storeW, ainsert [] ("hnsw." ++ "i") ixW⟩)
    ∧ search_knn FMtest ⟨storeW, []⟩ ["hnsw.search", "i", "5", "1"] =
      (.ok (.arr (.num [((1 : Int), "hnsw.i.a")].length ::
         [((1 : Int), "hnsw.i.a")].map (fun r => .pairNameDist r.2 r.1))),
       ⟨storeW, ainsert [] ("hnsw." ++ "i") ixW⟩) :=
  readonly_commands_load_into_registry FMtest ⟨storeW, []⟩ "hnsw.search" "i"
    "5" "1" [] 5 [1]
    (⟨"hnsw.i", 1, 5, 1, 1, ["hnsw.i.a"], [["hnsw.i.a"]], some "hnsw.i.a"⟩)
    ixW [((1 : Int), "hnsw.i.a")] (by decide) (by decide) (by decide)
    (by decide) (by decide) (by decide)

/-- Componentwise rounding agreement: both strings parse as f64 and the
two values cast to the same f32. -/
def roundEq (FM : FloatModel) (s t : String) : Prop :=
  ∃ x y, FM.parseFloat s = some x ∧ FM.parseFloat t = some y ∧
    FM.toF32 x = FM.toF32 y

/-- Vectors whose component strings agree after rounding parse to lists
with equal f32 images. -/
theorem parseVec_roundEq (FM : FloatModel) {vs ws : List String}
    (h : List.Forall₂ (roundEq FM) vs ws) :
    ∃ xs ys, parseVec FM vs = some xs ∧ parseVec FM ws = some ys ∧
      xs.map FM.toF32 = ys.map FM.toF32 := by
  induction h with
  | nil => exact ⟨[], [], rfl, rfl, rfl⟩
  | cons h1 _ ih =>
    obtain ⟨x, y, hx, hy, hxy⟩ := h1
    obtain ⟨xs, ys, hxs, hys, hmap⟩ := ih
    exact ⟨x :: xs, y :: ys, by simp [parseVec, hx, hxs],
      by simp [parseVec, hy, hys], by simp [hxy, hmap]⟩

/-- C10: NODE.ADD and SEARCH parse each vector component as an f64 and cast
it to f32 before it reaches the index, so two component lists whose f64
values round to the same f32 values produce identical command outcomes —
the same stored or queried vector — under every insertion core. -/
theorem vector_parse_cast_agreement (FM : FloatModel) (ac : AddCore)
    (st : GState) (c i n sk : String) (vs ws : List String)
    (h : List.Forall₂ (roundEq FM) vs ws) :
    add_node FM ac st (c :: i :: n :: vs) = add_node FM ac st (c :: i :: n :: ws)
    ∧ search_knn FM st (c :: i :: sk :: vs) = search_knn FM st (c :: i :: sk :: ws) := by
  obtain ⟨xs, ys, hxs, hys, hmap⟩ := parseVec_roundEq FM h
  have hlen : vs.length = ws.length := h.length_eq
  constructor
  · by_cases hc : ws.length + 1 + 1 + 1 < 4
    · simp [add_node, hlen, hc]
    · simp [add_node, hlen, hc, hxs, hys, hmap]
  · by_cases hc : ws.length + 1 + 1 + 1 < 4
    · simp [search_knn, hlen, hc]
    · simp [search_knn, hlen, hc, hxs, hys, hmap]

/-- Witness for the rounding-agreement theorem: under `FMround` the
distinct strings 1 and 2 round to the same f32. -/
theorem vector_parse_cast_agreement_witness :
    add_node FMround acNop stEmpty ["hnsw.node.add", "i", "a", "1"] =
      add_node FMround acNop stEmpty ["hnsw.node.add", "i", "a", "2"]
    ∧ search_knn FMround stEmpty ["hnsw.search", "i", "5", "1"] =
      search_knn FMround stEmpty ["hnsw.search", "i", "5", "2"] :=
  vector_parse_cast_agreement FMround acNop stEmpty "hnsw.node.add" "i" "a" "5"
    ["1"] ["2"]
    (List.Forall₂.cons ⟨1, 2, by decide, by decide, by decide⟩ List.Forall₂.nil)

/-- The frontier order is ascending in distance. -/
theorem distLe_dist_le {a b : Int × String} (h : distLe a b) : a.1 ≤ b.1 := by
  rcases h with h | ⟨h, _⟩
  · exact le_of_lt h
  · exact le_of_eq h

/-- A successful search returns at most k results, pairwise ascending in
distance (spec §4.5 step 4). -/
theorem searchKnnCore_ok_bounds (ix : Index) (q : List Int) (k : Nat)
    (res : List (Int × String)) (h : searchKnnCore ix q k = .ok res) :
    res.length ≤ k ∧ List.Pairwise (fun a b : Int × String => a.1 ≤ b.1) res := by
  unfold searchKnnCore at h
  by_cases hdim : q.length ≠ ix.dim
  · rw [if_pos hdim] at h; cases h
  · rw [if_neg hdim] at h
    cases hep : ix.enterpoint with
    | none =>
      rw [hep] at h
      cases h
      exact ⟨Nat.zero_le k, List.Pairwise.nil⟩
    | some ep =>
      rw [hep] at h
      cases h
      constructor
      · simp [List.length_take]
      · have hs := List.sorted_insertionSort distLe
          (searchLayer ix q [descend ix q (ix.layers.length - 1) ep] (max ix.efCon k) 0)
        exact (List.Pairwise.sublist (List.take_sublist k _) hs).imp distLe_dist_le

/-- C7: a successful SEARCH reply is the result count followed by exactly
that many (name, distance) entries — the k smallest-distance results of the
layer-0 beam, at most k of them, sorted ascending by distance
(lib.rs:395-406 for the reply shape; spec §4.5 step 4 for the order). -/
theorem search_reply_structure (FM : FloatModel) (st : GState)
    (c suffix sk v0 : String) (vrest : List String) (k : Nat) (ds : List Int)
    (ix : Index) (st1 : GState) (res : List (Int × String))
    (hk : FM.parseUInt sk = some k)
    (hv : parseVec FM (v0 :: vrest) = some ds)
    (hload : load_index st ("hnsw." ++ suffix) = .ok (ix, st1))
    (hres : searchKnnCore ix (ds.map FM.toF32) k = .ok res) :
    search_knn FM st (c :: suffix :: sk :: v0 :: vrest) =
      (.ok (.arr (.num (res.map (fun r => RVal.pairNameDist r.2 r.1)).length ::
        res.map (fun r => RVal.pairNameDist r.2 r.1))), st1)
    ∧ res.length ≤ k
    ∧ List.Pairwise (fun a b : Int × String => a.1 ≤ b.1) res := by
  have hb := searchKnnCore_ok_bounds ix (ds.map FM.toF32) k res hres
  refine ⟨?_, hb.1, hb.2⟩
  have harity : ¬ ((c :: suffix :: sk :: v0 :: vrest).length < 4) := by
    simp only [List.length_cons]
    omega
  simp [search_knn, harity, hk, hv, hload, hres]

/-- Witness for the SEARCH-reply theorem at a concrete one-node index. -/
theorem search_reply_structure_witness :
    search_knn FMtest ⟨storeW, []⟩ ["hnsw.search", "i", "5", "1"] =
      (.ok (.arr (.num ([((1 : Int), "hnsw.i.a")].map
          (fun r => RVal.pairNameDist r.2 r.1)).length ::
        [((1 : Int), "hnsw.i.a")].map (fun r => RVal.pairNameDist r.2 r.1))),
       ⟨storeW, ainsert [] ("hnsw." ++ "i") ixW⟩)
    ∧ [((1 : Int), "hnsw.i.a")].length ≤ 5
    ∧ List.Pairwise (fun a b : Int × String => a.1 ≤ b.1)
        [((1 : Int), "hnsw.i.a")] :=
  search_reply_structure FMtest ⟨storeW, []⟩ "hnsw.search" "i" "5" "1" [] 5 [1]
    ixW ⟨storeW, ainsert [] ("hnsw." ++ "i") ixW⟩ [((1 : Int), "hnsw.i.a")]
    (by decide) (by decide) (by decide) (by decide)

/-- Lookup after replace-or-append insertion. -/
theorem alookup_ainsert {α : Type} (l : List (String × α)) (k k' : String) (v : α) :
    alookup (ainsert l k v) k' = if k = k' then some v else alookup l k' := by
  induction l with
  | nil => simp [ainsert, alookup]
  | cons p rest ih =>
    obtain ⟨k0, v0⟩ := p
    by_cases h0 : k0 = k
    · subst h0
      by_cases h1 : k0 = k'
      · subst h1; simp [ainsert, alookup]
      · simp [ainsert, alookup, h1]
    · by_cases h1 : k0 = k'
      · subst h1
        have h2 : k ≠ k0 := fun h => h0 h.symm
        simp [ainsert, alookup, h0, h2]
      · simp [ainsert, alookup, h0, h1, ih]

/-- Key presence after insertion. -/
theorem alookup_ainsert_isSome {α : Type} (l : List (String × α))
    (k k' : String) (v : α) :
    (alookup (ainsert l k v) k').isSome ↔ (k = k' ∨ (alookup l k').isSome) := by
  rw [alookup_ainsert]
  by_cases h : k = k' <;> simp [h]

/-- A successful first pass found a record for every listed node. -/
theorem allocNodes_ok_recs {store : Store} : ∀ {names : List String}
    {acc m : List (String × Node)}, allocNodes store names acc = .ok m →
    ∀ n ∈ names, (alookup store.nodeRecs n).isSome := by
  intro names
  induction names with
  | nil => intro acc m h n hn; cases hn
  | cons a rest ih =>
    intro acc m h n hn
    unfold allocNodes at h
    cases hrec : alookup store.nodeRecs a with
    | none => rw [hrec] at h; cases h
    | some nr =>
      rw [hrec] at h
      rcases List.mem_cons.1 hn with hn | hn
      · subst hn; simp [hrec]
      · exact ih h n hn

/-- Every key of the first pass's output is an accumulator key or a listed
node name. -/
theorem allocNodes_ok_keys {store : Store} : ∀ {names : List String}
    {acc m : List (String × Node)}, allocNodes store names acc = .ok m →
    ∀ k, (alookup m k).isSome → (alookup acc k).isSome ∨ k ∈ names := by
  intro names
  induction names with
  | nil =>
    intro acc m h k hk
    unfold allocNodes at h
    cases h
    exact Or.inl hk
  | cons a rest ih =>
    intro acc m h k hk
    unfold allocNodes at h
    cases hrec : alookup store.nodeRecs a with
    | none => rw [hrec] at h; cases h
    | some nr =>
      rw [hrec] at h
      rcases ih h k hk with hacc | hrest
      · rcases (alookup_ainsert_isSome acc a k (Node.new nr.data)).1 hacc with he | hacc'
        · exact Or.inr (he ▸ List.mem_cons_self a rest)
        · exact Or.inl hacc'
      · exact Or.inr (List.mem_cons_of_mem a hrest)

/-- A successfully wired layer found every neighbor in the node map. -/
theorem wireNeighborLayer_ok {nodes : List (String × Node)} {nm : String} :
    ∀ {layer : List String} {out : List String},
    wireNeighborLayer nodes nm layer = .ok out →
    ∀ nb ∈ layer, (alookup nodes nb).isSome := by
  intro layer
  induction layer with
  | nil => intro out h nb hnb; cases hnb
  | cons a rest ih =>
    intro out h nb hnb
    unfold wireNeighborLayer at h
    cases hrec : alookup nodes a with
    | none => rw [hrec] at h; cases h
    | some nd =>
      rw [hrec] at h
      cases hrest : wireNeighborLayer nodes nm rest with
      | error e => rw [hrest] at h; cases h
      | ok l =>
        rcases List.mem_cons.1 hnb with hnb | hnb
        · subst hnb; simp [hrec]
        · exact ih hrest nb hnb

/-- A successfully wired node found every neighbor of every layer. -/
theorem wireNode_ok {nodes : List (String × Node)} {nm : String} :
    ∀ {layers : List (List String)} {out : List (List String)},
    wireNode nodes nm layers = .ok out →
    ∀ layer ∈ layers, ∀ nb ∈ layer, (alookup nodes nb).isSome := by
  intro layers
  induction layers with
  | nil => intro out h layer hl; cases hl
  | cons a rest ih =>
    intro out h layer hl
    unfold wireNode at h
    cases h1 : wireNeighborLayer nodes nm a with
    | error e => rw [h1] at h; cases h
    | ok l =>
      rw [h1] at h
      cases h2 : wireNode nodes nm rest with
      | error e => rw [h2] at h; cases h
      | ok ls =>
        rcases List.mem_cons.1 hl with hl | hl
        · subst hl; exact wireNeighborLayer_ok h1
        · exact ih h2 layer hl

/-- The second pass preserves the key set of the node map. -/
theorem wireAll_ok_keys {store : Store} : ∀ {names : List String}
    {nodes m : List (String × Node)}, wireAll store names nodes = .ok m →
    ∀ k, ((alookup m k).isSome ↔ (alookup nodes k).isSome) := by
  intro names
  induction names with
  | nil =>
    intro nodes m h k
    unfold wireAll at h
    cases h
    rfl
  | cons a rest ih =>
    intro nodes m h k
    unfold wireAll at h
    cases hrec : alookup store.nodeRecs a with
    | none => rw [hrec] at h; cases h
    | some nr =>
      rw [hrec] at h
      dsimp only at h
      cases h1 : wireNode nodes a nr.neighbors with
      | error e => rw [h1] at h; cases h
      | ok ls =>
        rw [h1] at h
        dsimp only at h
        cases h2 : alookup nodes a with
        | none => rw [h2] at h; cases h
        | some target =>
          rw [h2] at h
          dsimp only at h
          rw [ih h k, alookup_ainsert_isSome]
          constructor
          · rintro (he | hs)
            · subst he; simp [h2]
            · exact hs
          · exact Or.inr

/-- A successful second pass validated every neighbor of every listed
node's record against the (evolving, key-stable) node map. -/
theorem wireAll_ok_neighbors {store : Store} : ∀ {names : List String}
    {nodes m : List (String × Node)}, wireAll store names nodes = .ok m →
    ∀ n ∈ names, ∃ nr, alookup store.nodeRecs n = some nr ∧
      ∀ layer ∈ nr.neighbors, ∀ nb ∈ layer, (alookup nodes nb).isSome := by
  intro names
  induction names with
  | nil => intro nodes m h n hn; cases hn
  | cons a rest ih =>
    intro nodes m h n hn
    unfold wireAll at h
    cases hrec : alookup store.nodeRecs a with
    | none => rw [hrec] at h; cases h
    | some nr =>
      rw [hrec] at h
      dsimp only at h
      cases h1 : wireNode nodes a nr.neighbors with
      | error e => rw [h1] at h; cases h
      | ok ls =>
        rw [h1] at h
        dsimp only at h
        cases h2 : alookup nodes a with
        | none => rw [h2] at h; cases h
        | some target =>
          rw [h2] at h
          dsimp only at h
          rcases List.mem_cons.1 hn with hn | hn
          · subst hn
            exact ⟨nr, hrec, wireNode_ok h1⟩
          · obtain ⟨nr', hnr', hval⟩ := ih h n hn
            refine ⟨nr', hnr', fun layer hl nb hnb => ?_⟩
            have := hval layer hl nb hnb
            rcases (alookup_ainsert_isSome nodes a nb _).1 this with he | hs
            · subst he; simp [h2]
            · exact hs

/-- A successfully rebuilt layer found every member in the node map. -/
theorem buildOneLayer_ok {nodes : List (String × Node)} :
    ∀ {layer out : List String}, buildOneLayer nodes layer = .ok out →
    ∀ n ∈ layer, (alookup nodes n).isSome := by
  intro layer
  induction layer with
  | nil => intro out h n hn; cases hn
  | cons a rest ih =>
    intro out h n hn
    unfold buildOneLayer at h
    cases hrec : alookup nodes a with
    | none => rw [hrec] at h; cases h
    | some nd =>
      rw [hrec] at h
      cases hrest : buildOneLayer nodes rest with
      | error e => rw [hrest] at h; cases h
      | ok l =>
        rcases List.mem_cons.1 hn with hn | hn
        · subst hn; simp [hrec]
        · exact ih hrest n hn

/-- Successfully rebuilt layers found every member of every layer. -/
theorem buildLayers_ok {nodes : List (String × Node)} :
    ∀ {layers : List (List String)} {out : List (List String)},
    buildLayers nodes layers = .ok out →
    ∀ layer ∈ layers, ∀ n ∈ layer, (alookup nodes n).isSome := by
  intro layers
  induction layers with
  | nil => intro out h layer hl; cases hl
  | cons a rest ih =>
    intro out h layer hl
    unfold buildLayers at h
    cases h1 : buildOneLayer nodes a with
    | error e => rw [h1] at h; cases h
    | ok l =>
      rw [h1] at h
      cases h2 : buildLayers nodes rest with
      | error e => rw [h2] at h; cases h
      | ok ls =>
        rcases List.mem_cons.1 hl with hl | hl
        · subst hl; exact buildOneLayer_ok h1
        · exact ih h2 layer hl

/-- A record that rebuilds successfully has no dangling reference: every
name it mentions resolves to a node allocated in the first pass. -/
theorem make_index_ok_not_dangling {store : Store} {ir : IndexRec} {ix : Index}
    (h : make_index store ir = .ok ix) : ¬ danglingRef store ir := by
  unfold make_index at h
  cases h1 : allocNodes store ir.nodes [] with
  | error e => rw [h1] at h; cases h
  | ok nodes1 =>
    rw [h1] at h
    dsimp only at h
    cases h2 : wireAll store ir.nodes nodes1 with
    | error e => rw [h2] at h; cases h
    | ok nodes2 =>
      rw [h2] at h
      dsimp only at h
      cases h3 : buildLayers nodes2 ir.layers with
      | error e => rw [h3] at h; cases h
      | ok layers =>
        rw [h3] at h
        dsimp only at h
        have keyOf : ∀ k : String, (alookup nodes1 k).isSome → k ∈ ir.nodes := by
          intro k hk
          rcases allocNodes_ok_keys h1 k hk with habs | hmem
          · simp [alookup] at habs
          · exact hmem
        intro hd
        rcases hd with ⟨n, hn, hnone⟩ | ⟨n, hn, nr, hnr, layer, hl, nb, hnb, hni⟩ |
          ⟨layer, hl, n, hn, hni⟩ | ⟨n, hep, hni⟩
        · have := allocNodes_ok_recs h1 n hn
          simp [hnone] at this
        · obtain ⟨nr', hnr', hval⟩ := wireAll_ok_neighbors h2 n hn
          rw [hnr] at hnr'
          cases hnr'
          exact hni (keyOf nb (hval layer hl nb hnb))
        · have := buildLayers_ok h3 layer hl n hn
          exact hni (keyOf n ((wireAll_ok_keys h2 n).1 this))
        · rw [hep] at h
          dsimp only at h
          cases h4 : alookup nodes2 n with
          | none => rw [h4] at h; cases h
          | some nd =>
            have : (alookup nodes2 n).isSome := by simp [h4]
            exact hni (keyOf n ((wireAll_ok_keys h2 n).1 this))

/-- Store fixture whose single index record cyclically cross-references its
two node records: wiring either node needs the other to be allocated
already, so a successful load exhibits the two-pass structure. -/
def storeFwd : Store :=
  ⟨[("hnsw.f", ⟨"hnsw.f", 1, 5, 200, 2, ["hnsw.f.a", "hnsw.f.b"],
      [["hnsw.f.a", "hnsw.f.b"]], some "hnsw.f.a"⟩)],
   [("hnsw.f.a", ⟨[0], [["hnsw.f.b"]]⟩), ("hnsw.f.b", ⟨[1], [["hnsw.f.a"]]⟩)]⟩

/-- The index record of `storeFwd`. -/
def irFwd : IndexRec :=
  ⟨"hnsw.f", 1, 5, 200, 2, ["hnsw.f.a", "hnsw.f.b"],
    [["hnsw.f.a", "hnsw.f.b"]], some "hnsw.f.a"⟩

/-- The index `make_index` rebuilds from `storeFwd`: both nodes allocated,
their mutual neighbor references wired to the pre-allocated targets. -/
def ixFwd : Index :=
  { name := "hnsw.f", dim := 1, M := 5, m_max := 5, m_max_0 := 10, efCon := 200,
    nodes := [("hnsw.f.a", ⟨[0], [["hnsw.f.b"]], 1⟩),
              ("hnsw.f.b", ⟨[1], [["hnsw.f.a"]], 1⟩)],
    layers := [["hnsw.f.a", "hnsw.f.b"]], enterpoint := some "hnsw.f.a" }

/-- C3: loading an index whose stored records contain any dangling
reference (node list, neighbor entry, layer entry or enterpoint naming a
node with no record) fails with an error and does not insert the index into
the registry — the state is untouched; and the two-pass load (allocate all
nodes with empty neighbor lists, then wire weak references to the
pre-allocated targets) succeeds on a record whose nodes reference each
other regardless of allocation order. -/
theorem load_dangling_fails (st : GState) (c suffix : String) (ir : IndexRec)
    (hreg : alookup st.registry ("hnsw." ++ suffix) = none)
    (hstore : alookup st.store.indexRecs ("hnsw." ++ suffix) = some ir)
    (hd : danglingRef st.store ir) :
    (∃ e, get_index st [c, suffix] = (.error e, st))
    ∧ make_index storeFwd irFwd = .ok ixFwd := by
  refine ⟨?_, by decide⟩
  cases hmk : make_index st.store ir with
  | ok ix => exact absurd hd (make_index_ok_not_dangling hmk)
  | error e =>
    refine ⟨e, ?_⟩
    simp [get_index, load_index, hreg, hstore, hmk]

/-- Store whose index record names a node without a record. -/
def stDangling : GState :=
  ⟨⟨[("hnsw.d", ⟨"hnsw.d", 1, 5, 200, 1, ["hnsw.d.a"], [["hnsw.d.a"]],
      some "hnsw.d.a"⟩)], []⟩, []⟩

/-- Witness for the dangling-load theorem at a concrete broken store. -/
theorem load_dangling_fails_witness :
    (∃ e, get_index stDangling ["hnsw.get", "d"] = (.error e, stDangling))
    ∧ make_index storeFwd irFwd = .ok ixFwd :=
  load_dangling_fails stDangling "hnsw.get" "d"
    ⟨"hnsw.d", 1, 5, 200, 1, ["hnsw.d.a"], [["hnsw.d.a"]], some "hnsw.d.a"⟩
    (by decide) (by decide)
    (Or.inl ⟨"hnsw.d.a", by decide, by decide⟩)

end RedisHnsw
